import Mathlib

/-!
Verification of the Ambassador project-scaffolding script (`setup.py`).

The script is embedded shallowly: strings are modelled as `String`/`List Char`,
Python `str.replace` as `pyReplace`, the two input validators as boolean
functions over the character lists, and the script's filesystem effects as a
small state machine over an explicit filesystem value.  Python `exit()` (used
on every validation or substitution failure) terminates the interpreter with
exit status 0; an uncaught exception terminates it with exit status 1.  Both
are modelled explicitly in the `Outcome` type.
-/

namespace Ambassador

set_option maxRecDepth 400000

/-- ASCII uppercase-letter test, the regex class A-Z of setup.py. -/
def isUpperAZ (c : Char) : Bool := 'A' ≤ c && c ≤ 'Z'

/-- ASCII lowercase-letter test, the regex class a-z of setup.py. -/
def isLowerAZ (c : Char) : Bool := 'a' ≤ c && c ≤ 'z'

/-- ASCII digit test, the regex class 0-9 of setup.py. -/
def isDigit09 (c : Char) : Bool := '0' ≤ c && c ≤ '9'

/-- The character class a-zA-Z0-9_ shared by both validation regexes. -/
def isWordChar (c : Char) : Bool := isLowerAZ c || isUpperAZ c || isDigit09 c || c == '_'

/-- Embeds `is_valid_java_class_name` of setup.py: full match of the regex
an uppercase letter followed by word characters. -/
def is_valid_java_class_name (name : String) : Bool :=
  match name.data with
  | [] => false
  | c :: cs => isUpperAZ c && cs.all isWordChar

/-- Splits a character list at every occurrence of a separator character,
keeping empty pieces, as Python and Lean `splitOn` do for a one-character
separator. -/
def splitOnChar (sep : Char) : List Char → List (List Char)
  | [] => [[]]
  | c :: cs =>
    if c == sep then [] :: splitOnChar sep cs
    else
      match splitOnChar sep cs with
      | [] => [[c]]
      | h :: t => (c :: h) :: t

/-- One segment of a dotted package path: a lowercase letter followed by word
characters, the parenthesised group of the package regex in setup.py. -/
def segIsValid (l : List Char) : Bool :=
  match l with
  | [] => false
  | c :: cs => isLowerAZ c && cs.all isWordChar

/-- Embeds `is_valid_java_package` of setup.py: full match of one dot-separated
segment group repeated, which holds exactly when every dot-separated piece of
the string matches the segment group. -/
def is_valid_java_package (package : String) : Bool :=
  (splitOnChar '.' package.data).all segIsValid

/-- Joins pieces with a separator list between consecutive pieces, the inverse
of `splitOnChar`. -/
def joinWith (sep : List Char) : List (List Char) → List Char
  | [] => []
  | [x] => x
  | x :: y :: t => x ++ sep ++ joinWith sep (y :: t)

theorem splitOnChar_ne_nil (sep : Char) (l : List Char) : splitOnChar sep l ≠ [] := by
  cases l with
  | nil => simp [splitOnChar]
  | cons c cs =>
    simp only [splitOnChar]
    split
    · simp
    · cases h : splitOnChar sep cs <;> simp

theorem joinWith_splitOnChar (sep : Char) (l : List Char) :
    joinWith [sep] (splitOnChar sep l) = l := by
  induction l with
  | nil => simp [splitOnChar, joinWith]
  | cons c cs ih =>
    obtain ⟨h, t, ht⟩ : ∃ h t, splitOnChar sep cs = h :: t := by
      cases hsp : splitOnChar sep cs with
      | nil => exact absurd hsp (splitOnChar_ne_nil sep cs)
      | cons h t => exact ⟨h, t, rfl⟩
    simp only [splitOnChar, beq_iff_eq]
    by_cases hc : c = sep
    · subst hc
      rw [ht] at ih
      rw [if_pos rfl, ht]
      simpa [joinWith] using ih
    · rw [if_neg hc, ht]
      rw [ht] at ih
      cases t with
      | nil => simpa [joinWith] using ih
      | cons y ys => simpa [joinWith] using ih

theorem splitOnChar_of_not_mem (sep : Char) (l : List Char) (h : sep ∉ l) :
    splitOnChar sep l = [l] := by
  induction l with
  | nil => simp [splitOnChar]
  | cons c cs ih =>
    simp only [List.mem_cons, not_or] at h
    have hcc : ¬ (c = sep) := fun hh => h.1 hh.symm
    simp only [splitOnChar, beq_iff_eq]
    rw [if_neg hcc, ih h.2]

theorem splitOnChar_append_sep (sep : Char) (a r : List Char) (ha : sep ∉ a) :
    splitOnChar sep (a ++ sep :: r) = a :: splitOnChar sep r := by
  induction a with
  | nil => simp [splitOnChar]
  | cons c cs ih =>
    simp only [List.mem_cons, not_or] at ha
    have hcc : ¬ (c = sep) := fun hh => ha.1 hh.symm
    simp only [List.cons_append, splitOnChar, beq_iff_eq]
    rw [if_neg hcc]
    simp only [List.append_eq]
    rw [ih ha.2]

theorem splitOnChar_joinWith (sep : Char) (segs : List (List Char))
    (hne : segs ≠ []) (hsep : ∀ seg ∈ segs, sep ∉ seg) :
    splitOnChar sep (joinWith [sep] segs) = segs := by
  induction segs with
  | nil => exact absurd rfl hne
  | cons x t ih =>
    cases t with
    | nil =>
      simp only [joinWith]
      exact splitOnChar_of_not_mem sep x (hsep x (by simp))
    | cons y ys =>
      have hx : sep ∉ x := hsep x (by simp)
      have : joinWith [sep] (x :: y :: ys) = x ++ sep :: joinWith [sep] (y :: ys) := by
        simp [joinWith]
      rw [this, splitOnChar_append_sep sep x _ hx,
        ih (by simp) (fun seg hs => hsep seg (List.mem_cons_of_mem x hs))]

theorem isLowerAZ_ne_dot {c : Char} (h : isLowerAZ c = true) : c ≠ '.' := by
  intro hc
  subst hc
  simp [isLowerAZ] at h

theorem isWordChar_ne_dot {c : Char} (h : isWordChar c = true) : c ≠ '.' := by
  intro hc
  subst hc
  simp [isWordChar, isLowerAZ, isUpperAZ, isDigit09] at h

theorem isUpperAZ_iff (c : Char) : isUpperAZ c = true ↔ ('A' ≤ c ∧ c ≤ 'Z') := by
  simp [isUpperAZ, Bool.and_eq_true, decide_eq_true_eq]

theorem isLowerAZ_iff (c : Char) : isLowerAZ c = true ↔ ('a' ≤ c ∧ c ≤ 'z') := by
  simp [isLowerAZ, Bool.and_eq_true, decide_eq_true_eq]

theorem isWordChar_iff (x : Char) : isWordChar x = true ↔
    ('a' ≤ x ∧ x ≤ 'z') ∨ ('A' ≤ x ∧ x ≤ 'Z') ∨ ('0' ≤ x ∧ x ≤ '9') ∨ x = '_' := by
  simp [isWordChar, isLowerAZ, isUpperAZ, isDigit09, Bool.or_eq_true, Bool.and_eq_true,
    decide_eq_true_eq, beq_iff_eq, or_assoc]

/-- C6: `is_valid_java_class_name` accepts exactly the strings whose first
character is an uppercase ASCII letter and whose remaining characters are
ASCII alphanumerics or underscores; in particular it accepts "MyApp" and
rejects the empty string and strings starting lowercase or containing a
hyphen, a dot or a space. -/
theorem C6_validate_project_name :
    (∀ s : String, is_valid_java_class_name s = true ↔
      ∃ c cs, s.data = c :: cs ∧ ('A' ≤ c ∧ c ≤ 'Z') ∧
        ∀ x ∈ cs, ('a' ≤ x ∧ x ≤ 'z') ∨ ('A' ≤ x ∧ x ≤ 'Z') ∨
          ('0' ≤ x ∧ x ≤ '9') ∨ x = '_') ∧
    is_valid_java_class_name "MyApp" = true ∧
    is_valid_java_class_name "" = false ∧
    is_valid_java_class_name "myApp" = false ∧
    is_valid_java_class_name "My-App" = false ∧
    is_valid_java_class_name "My.App" = false ∧
    is_valid_java_class_name "My App" = false := by
  refine ⟨?_, by decide, by decide, by decide, by decide, by decide, by decide⟩
  intro s
  constructor
  · intro hb
    cases hd : s.data with
    | nil => rw [is_valid_java_class_name, hd] at hb; exact absurd hb (by simp)
    | cons c cs =>
      rw [is_valid_java_class_name, hd] at hb
      have h1 : isUpperAZ c = true := (Bool.and_eq_true _ _ ▸ hb).1
      have h2 : cs.all isWordChar = true := (Bool.and_eq_true _ _ ▸ hb).2
      exact ⟨c, cs, rfl, (isUpperAZ_iff c).mp h1,
        fun x hx => (isWordChar_iff x).mp (List.all_eq_true.mp h2 x hx)⟩
  · rintro ⟨c, cs, hd, hc, hcs⟩
    rw [is_valid_java_class_name, hd]
    exact (Bool.and_eq_true _ _).mpr ⟨(isUpperAZ_iff c).mpr hc,
      List.all_eq_true.mpr (fun x hx => (isWordChar_iff x).mpr (hcs x hx))⟩

/-- C7: `is_valid_java_package` accepts exactly the strings that are one or
more dot-separated segments, each a lowercase ASCII letter followed by ASCII
alphanumerics or underscores; in particular it accepts "com.example.app" and
rejects "Com.example" and "com..app". -/
theorem C7_validate_package_path :
    (∀ s : String, is_valid_java_package s = true ↔
      ∃ segs : List (List Char), segs ≠ [] ∧ s.data = joinWith ['.'] segs ∧
        ∀ seg ∈ segs, ∃ c cs, seg = c :: cs ∧ ('a' ≤ c ∧ c ≤ 'z') ∧
          ∀ x ∈ cs, ('a' ≤ x ∧ x ≤ 'z') ∨ ('A' ≤ x ∧ x ≤ 'Z') ∨
            ('0' ≤ x ∧ x ≤ '9') ∨ x = '_') ∧
    is_valid_java_package "com.example.app" = true ∧
    is_valid_java_package "Com.example" = false ∧
    is_valid_java_package "com..app" = false ∧
    is_valid_java_package "" = false := by
  refine ⟨?_, by decide, by decide, by decide, by decide⟩
  intro s
  constructor
  · intro hb
    refine ⟨splitOnChar '.' s.data, splitOnChar_ne_nil '.' s.data,
      (joinWith_splitOnChar '.' s.data).symm, ?_⟩
    intro seg hseg
    have hseg' : segIsValid seg = true :=
      List.all_eq_true.mp (by simpa [is_valid_java_package] using hb) seg hseg
    cases seg with
    | nil => exact absurd hseg' (by simp [segIsValid])
    | cons c cs =>
      rw [segIsValid] at hseg'
      have h1 : isLowerAZ c = true := (Bool.and_eq_true _ _ ▸ hseg').1
      have h2 : cs.all isWordChar = true := (Bool.and_eq_true _ _ ▸ hseg').2
      exact ⟨c, cs, rfl, (isLowerAZ_iff c).mp h1,
        fun x hx => (isWordChar_iff x).mp (List.all_eq_true.mp h2 x hx)⟩
  · rintro ⟨segs, hne, hdata, hsegs⟩
    have hnodot : ∀ seg ∈ segs, '.' ∉ seg := by
      intro seg hs hmem
      obtain ⟨c, cs, rfl, hc, hcs⟩ := hsegs seg hs
      rcases List.mem_cons.mp hmem with h | h
      · exact isLowerAZ_ne_dot ((isLowerAZ_iff c).mpr hc) h.symm
      · exact isWordChar_ne_dot ((isWordChar_iff '.').mpr (hcs '.' h)) rfl
    rw [is_valid_java_package, hdata, splitOnChar_joinWith '.' segs hne hnodot]
    refine List.all_eq_true.mpr (fun seg hs => ?_)
    obtain ⟨c, cs, rfl, hc, hcs⟩ := hsegs seg hs
    rw [segIsValid]
    exact (Bool.and_eq_true _ _).mpr ⟨(isLowerAZ_iff c).mpr hc,
      List.all_eq_true.mpr (fun x hx => (isWordChar_iff x).mpr (hcs x hx))⟩

/-! ## The text substitution engine: Python str.replace -/

/-- Scanning core of Python str.replace for a non-empty pattern: walk left to
right, replace a match of old and continue after the inserted text without
reusing overlapped text, otherwise keep the character.  The fuel argument is
instantiated with the length of the scanned list and only makes the recursion
structural. -/
def replaceAux (old new : List Char) : Nat → List Char → List Char
  | 0, l => l
  | _ + 1, [] => []
  | fuel + 1, c :: cs =>
    if old.isPrefixOf (c :: cs) then
      new ++ replaceAux old new fuel (List.drop old.length (c :: cs))
    else c :: replaceAux old new fuel cs

/-- Embeds Python str.replace, including the empty-pattern case, where Python
inserts the replacement before every character and once at the end. -/
def pyReplace (old new c : List Char) : List Char :=
  if old.isEmpty then new ++ c.flatMap (fun a => a :: new)
  else replaceAux old new c.length c

/-- String-level wrapper of `pyReplace`; the argument order mirrors the Python
call content.replace(original, replacement). -/
def strReplace (c old new : String) : String :=
  String.mk (pyReplace old.data new.data c.data)

theorem isPrefixOf_iff {l m : List Char} : l.isPrefixOf m = true ↔ ∃ t, m = l ++ t := by
  induction l generalizing m with
  | nil => simp [List.isPrefixOf]
  | cons a as ih =>
    cases m with
    | nil => simp [List.isPrefixOf]
    | cons b bs =>
      rw [List.isPrefixOf, Bool.and_eq_true, beq_iff_eq, ih]
      constructor
      · rintro ⟨rfl, t, rfl⟩; exact ⟨t, rfl⟩
      · rintro ⟨t, h⟩
        injection h with h1 h2
        exact ⟨h1.symm, t, h2⟩

/-- Whether pat occurs in a list as a contiguous substring: the notion of
occurrence substituted by str.replace. -/
def occursSub (pat : List Char) : List Char → Bool
  | [] => pat.isEmpty
  | a :: t => pat.isPrefixOf (a :: t) || occursSub pat t

theorem occursSub_nil_pat (l : List Char) : occursSub [] l = true := by
  cases l <;> simp [occursSub, List.isPrefixOf, List.isEmpty]

theorem occursSub_iff (pat l : List Char) :
    occursSub pat l = true ↔ ∃ u v, l = u ++ pat ++ v := by
  induction l with
  | nil =>
    rw [occursSub]
    constructor
    · intro h
      have hp : pat = [] := by
        cases pat with
        | nil => rfl
        | cons p ps => simp [List.isEmpty] at h
      exact ⟨[], [], by simp [hp]⟩
    · rintro ⟨u, v, h⟩
      have h' := h.symm
      rw [List.append_assoc] at h'
      have h1 := List.append_eq_nil.mp h'
      have h2 := List.append_eq_nil.mp h1.2
      rw [h2.1]
      rfl
  | cons a t ih =>
    rw [occursSub, Bool.or_eq_true, isPrefixOf_iff, ih]
    constructor
    · rintro (⟨t2, ht⟩ | ⟨u, v, huv⟩)
      · exact ⟨[], t2, by simp [ht]⟩
      · exact ⟨a :: u, v, by simp [huv]⟩
    · rintro ⟨u, v, huv⟩
      cases u with
      | nil => exact Or.inl ⟨v, by simpa using huv⟩
      | cons b bs =>
        injection huv with h1 h2
        exact Or.inr ⟨bs, v, h2⟩

theorem occursSub_of_prefix_drop (old c : List Char) (i : Nat)
    (h : old.isPrefixOf (c.drop i) = true) : occursSub old c = true := by
  obtain ⟨t, ht⟩ := isPrefixOf_iff.mp h
  refine (occursSub_iff old c).mpr ⟨c.take i, t, ?_⟩
  conv_lhs => rw [← List.take_append_drop i c]
  rw [ht, List.append_assoc]

theorem replaceAux_no_match (old new l : List Char)
    (h : ∀ i, old.isPrefixOf (l.drop i) = false) :
    ∀ fuel, replaceAux old new fuel l = l := by
  induction l with
  | nil => intro fuel; cases fuel <;> rfl
  | cons a t ih =>
    intro fuel
    cases fuel with
    | zero => rfl
    | succ n =>
      have hh : old.isPrefixOf (a :: t) = false := h 0
      rw [replaceAux, hh]
      simp only [Bool.false_eq_true, if_false]
      exact congrArg (a :: ·) (ih (fun i => h (i + 1)) n)

/-- Index of the leftmost occurrence of a pattern, if any: the position at
which a literal replace-all substitutes first. -/
def firstOccurrence (pat : List Char) : List Char → Option Nat
  | [] => if pat.isEmpty then some 0 else none
  | a :: t =>
    if pat.isPrefixOf (a :: t) then some 0
    else (firstOccurrence pat t).map (· + 1)

theorem firstOccurrence_none (pat l : List Char)
    (h : firstOccurrence pat l = none) : ∀ i, pat.isPrefixOf (l.drop i) = false := by
  induction l with
  | nil =>
    intro i
    cases pat with
    | nil => rw [firstOccurrence] at h; simp [List.isEmpty] at h
    | cons p ps => simp [List.drop_nil, List.isPrefixOf]
  | cons a t ih =>
    intro i
    rw [firstOccurrence] at h
    by_cases hp : pat.isPrefixOf (a :: t) = true
    · rw [if_pos hp] at h; exact absurd h (by simp)
    · rw [if_neg hp] at h
      have ht : firstOccurrence pat t = none := by
        cases hh : firstOccurrence pat t with
        | none => rfl
        | some j => rw [hh] at h; exact absurd h (by simp)
      cases i with
      | zero => exact Bool.eq_false_iff.mpr hp
      | succ i => exact ih ht i

/-- Specification form of a literal replace-all, following the claim: find
the leftmost occurrence, splice in the replacement, continue strictly after
the replaced text. -/
def replaceEverywhere (pat new : List Char) : Nat → List Char → List Char
  | 0, c => c
  | fuel + 1, c =>
    match firstOccurrence pat c with
    | none => c
    | some i => c.take i ++ new ++ replaceEverywhere pat new fuel (c.drop (i + pat.length))

/-- The claim-side rendering of whole-string leftmost non-overlapping literal
replace-all. -/
def replaceAllSpec (pat new c : List Char) : List Char :=
  replaceEverywhere pat new c.length c

theorem replaceAux_eq_replaceEverywhere (old new : List Char) (hold : old ≠ []) :
    ∀ (n : Nat) (c : List Char), c.length ≤ n → ∀ f₁ f₂, c.length ≤ f₁ → c.length ≤ f₂ →
      replaceAux old new f₁ c = replaceEverywhere old new f₂ c := by
  have hemp : old.isEmpty = false := by
    cases old with
    | nil => exact absurd rfl hold
    | cons p ps => rfl
  have holen : 1 ≤ old.length := by
    cases old with
    | nil => exact absurd rfl hold
    | cons p ps => simp
  intro n
  induction n with
  | zero =>
    intro c hc f₁ f₂ _ _
    have hcnil : c = [] := List.length_eq_zero.mp (Nat.le_zero.mp hc)
    subst hcnil
    cases f₁ <;> cases f₂ <;> simp [replaceAux, replaceEverywhere, firstOccurrence, hemp]
  | succ n ih =>
    intro c hc f₁ f₂ h1 h2
    cases c with
    | nil =>
      cases f₁ <;> cases f₂ <;> simp [replaceAux, replaceEverywhere, firstOccurrence, hemp]
    | cons a l =>
      obtain ⟨g₁, rfl⟩ : ∃ g₁, f₁ = g₁ + 1 := by
        cases f₁ with
        | zero => simp at h1
        | succ g => exact ⟨g, rfl⟩
      obtain ⟨g₂, rfl⟩ : ∃ g₂, f₂ = g₂ + 1 := by
        cases f₂ with
        | zero => simp at h2
        | succ g => exact ⟨g, rfl⟩
      simp only [List.length_cons] at hc h1 h2
      by_cases hp : old.isPrefixOf (a :: l) = true
      · have hfo : firstOccurrence old (a :: l) = some 0 := by
          rw [firstOccurrence, if_pos hp]
        rw [replaceAux, if_pos hp, replaceEverywhere, hfo]
        simp only [List.take_zero, List.nil_append, Nat.zero_add]
        congr 1
        have hdlen : (List.drop old.length (a :: l)).length = l.length + 1 - old.length := by
          simp [List.length_drop]
        exact ih (List.drop old.length (a :: l)) (by omega) g₁ g₂ (by omega) (by omega)
      · rw [replaceAux, if_neg hp]
        cases hfo : firstOccurrence old l with
        | none =>
          have hfo' : firstOccurrence old (a :: l) = none := by
            rw [firstOccurrence, if_neg hp, hfo]; rfl
          rw [replaceEverywhere, hfo']
          rw [replaceAux_no_match old new l (firstOccurrence_none old l hfo) g₁]
        | some j =>
          have hfo' : firstOccurrence old (a :: l) = some (j + 1) := by
            rw [firstOccurrence, if_neg hp, hfo]; rfl
          rw [replaceEverywhere, hfo']
          show a :: replaceAux old new g₁ l =
            List.take (j + 1) (a :: l) ++ new ++
              replaceEverywhere old new g₂ (List.drop (j + 1 + old.length) (a :: l))
          rw [List.take_succ_cons]
          have hdrop : (a :: l).drop (j + 1 + old.length) = l.drop (j + old.length) := by
            have harith : j + 1 + old.length = (j + old.length) + 1 := by omega
            rw [harith, List.drop_succ_cons]
          rw [hdrop]
          have hre : List.take j l ++ new ++
              replaceEverywhere old new g₂ (l.drop (j + old.length)) =
              replaceEverywhere old new (g₂ + 1) l := by
            rw [replaceEverywhere, hfo]
          simp only [List.cons_append, List.append_assoc] at hre ⊢
          rw [hre]
          exact congrArg (a :: ·) (ih l (by omega) g₁ (g₂ + 1) (by omega) (by omega))

theorem pyReplace_no_occurrence (old new l : List Char)
    (h : occursSub old l = false) : pyReplace old new l = l := by
  have hold : old ≠ [] := by
    intro he
    rw [he, occursSub_nil_pat] at h
    exact absurd h (by simp)
  have hemp : old.isEmpty = false := by
    cases old with
    | nil => exact absurd rfl hold
    | cons p ps => rfl
  rw [pyReplace, hemp]
  simp only [Bool.false_eq_true, if_false]
  apply replaceAux_no_match
  intro i
  cases hp : old.isPrefixOf (l.drop i) with
  | false => rfl
  | true =>
    rw [occursSub_of_prefix_drop old l i hp] at h
    exact absurd h (by simp)

/-- C9 counterexample: with content "abb", old token "ab" and new token "a",
the new token does not contain the old one, yet substituting twice gives "a"
whereas substituting once gives "ab" — the claimed proviso does not make the
substitution idempotent, because an occurrence of the old token can form at
the junction of the inserted text and the following content. -/
theorem C9_counterexample :
    occursSub "ab".data "a".data = false ∧
    strReplace "abb" "ab" "a" = "ab" ∧
    strReplace (strReplace "abb" "ab" "a") "ab" "a" ≠ strReplace "abb" "ab" "a" := by
  refine ⟨by decide, by decide, by decide⟩

/-- C9 amended: applying the same substitution twice yields content identical
to applying it once, provided the old token does not occur in the
once-substituted content (the stated proviso — that new does not contain old —
is weaker and insufficient). -/
theorem C9_amended_idempotence (c old new : String)
    (h : occursSub old.data (strReplace c old new).data = false) :
    strReplace (strReplace c old new) old new = strReplace c old new := by
  show String.mk (pyReplace old.data new.data (strReplace c old new).data) =
    strReplace c old new
  rw [pyReplace_no_occurrence old.data new.data _ h]

theorem C9_amended_idempotence_witness :
    occursSub "x".data (strReplace "x" "x" "y").data = false ∧
    strReplace (strReplace "x" "x" "y") "x" "y" = strReplace "x" "x" "y" :=
  ⟨by decide, C9_amended_idempotence "x" "x" "y" (by decide)⟩

/-! ## Filesystem model and the script's effect -/

/-- A filesystem: the set of existing directories and a map from file path to
textual content, both as lists over slash-separated paths. -/
structure FS where
  dirs : List String
  files : List (String × String)
deriving DecidableEq

/-- Outcome of a whole run of the script: the process exit status, the
diagnostic lines printed, and the final filesystem.  Python exit() — called
on every validation or substitution failure — terminates the interpreter
with status 0; an uncaught exception terminates it with status 1. -/
structure Outcome where
  exitCode : Nat
  messages : List String
  fs : FS
deriving DecidableEq

/-- String membership in a list, by structural recursion. -/
def memS (x : String) : List String → Bool
  | [] => false
  | a :: t => x == a || memS x t

/-- Whether a file with the given path exists. -/
def hasFile (x : String) : List (String × String) → Bool
  | [] => false
  | f :: t => f.1 == x || hasFile x t

/-- Content of the first file entry with the given path. -/
def lookupFile (x : String) : List (String × String) → Option String
  | [] => none
  | f :: t => if f.1 == x then some f.2 else lookupFile x t

/-- os.path.join on the POSIX separator, the separator the model fixes. -/
def joinP (a b : String) : String := a ++ "/" ++ b

/-- Whether p lies strictly below the directory root. -/
def isUnder (root p : String) : Bool := (root ++ "/").data.isPrefixOf p.data

/-- Effect of shutil.rmtree on the filesystem: the directory and everything
below it disappears. -/
def rmtreeFS (p : String) (fs : FS) : FS :=
  ⟨fs.dirs.filter (fun d => !(d == p || isUnder p d)),
   fs.files.filter (fun f => !(isUnder p f.1))⟩

/-- shutil.rmtree: an uncaught FileNotFoundError (exit status 1) if the
directory does not exist. -/
def rmtreeE (p : String) (fs : FS) : Except Outcome FS :=
  if memS p fs.dirs then Except.ok (rmtreeFS p fs)
  else Except.error ⟨1, ["FileNotFoundError: " ++ p], fs⟩

/-- os.remove: deletes one file, fails fatally if it is missing. -/
def removeE (p : String) (fs : FS) : Except Outcome FS :=
  if hasFile p fs.files then
    Except.ok ⟨fs.dirs, fs.files.filter (fun f => !(f.1 == p))⟩
  else Except.error ⟨1, ["FileNotFoundError: " ++ p], fs⟩

/-- Path renaming underlying shutil.move: the moved root keeps its subtree. -/
def renamePath (src dst p : String) : String :=
  if p == src then dst
  else if isUnder src p then dst ++ "/" ++ String.mk (p.data.drop (src.length + 1))
  else p

/-- Last path component. -/
def basenameS (p : String) : String :=
  String.mk ((splitOnChar '/' p.data).getLastD [])

/-- shutil.move src dst, for the cases the script exercises: renaming a whole
directory tree or a single file; when dst is an existing directory the source
is moved inside it.  Fails fatally when src is missing. -/
def moveE (src dst : String) (fs : FS) : Except Outcome FS :=
  let dst' := if memS dst fs.dirs then joinP dst (basenameS src) else dst
  if memS src fs.dirs then
    Except.ok ⟨fs.dirs.map (renamePath src dst'),
      fs.files.map (fun f => (renamePath src dst' f.1, f.2))⟩
  else if hasFile src fs.files then
    Except.ok ⟨fs.dirs,
      fs.files.map (fun f => (if f.1 == src then dst' else f.1, f.2))⟩
  else Except.error ⟨1, ["FileNotFoundError: " ++ src], fs⟩

/-- All ancestor paths of p, outermost first, p itself last. -/
def ancestorsOf (p : String) : List String :=
  let segs := splitOnChar '/' p.data
  (List.range segs.length).map (fun i => String.mk (joinWith ['/'] (segs.take (i + 1))))

/-- os.makedirs with exist_ok: creates every missing ancestor, succeeds
silently on the ones that exist, fails fatally if a component exists as a
file. -/
def makedirsE (p : String) (fs : FS) : Except Outcome FS :=
  let anc := ancestorsOf p
  if anc.any (fun d => hasFile d fs.files) then
    Except.error ⟨1, ["FileExistsError: " ++ p], fs⟩
  else
    Except.ok ⟨anc.foldl (fun ds d => if memS d ds then ds else ds ++ [d]) fs.dirs,
      fs.files⟩

/-- Directory part of a path, empty for a bare file name in the working
directory. -/
def dirnameS (p : String) : String :=
  String.mk (joinWith ['/'] ((splitOnChar '/' p.data).dropLast))

/-- Python open(p, "w") followed by one full write: truncates an existing
file or creates a fresh one, failing fatally (uncaught, exit status 1) when
the parent directory is missing — the script's three stamping writes are not
wrapped in any handler. -/
def writeNewE (p content : String) (fs : FS) : Except Outcome FS :=
  if dirnameS p == "" || memS (dirnameS p) fs.dirs then
    Except.ok ⟨fs.dirs,
      if hasFile p fs.files then
        fs.files.map (fun f => if f.1 == p then (f.1, content) else f)
      else fs.files ++ [(p, content)]⟩
  else Except.error ⟨1, ["FileNotFoundError: " ++ p], fs⟩

/-- Embeds replace_in_file of setup.py: read the whole file, run the literal
replace-all on its content, write the result back over the same file.  A
missing file — or any other error — is caught, a diagnostic is printed and
exit() terminates the interpreter, which yields exit status 0. -/
def replaceInFileE (filename original replacement : String) (fs : FS) :
    Except Outcome FS :=
  match lookupFile filename fs.files with
  | none => Except.error ⟨0, ["Error: " ++ filename ++ " not found."], fs⟩
  | some _ =>
    Except.ok ⟨fs.dirs,
      fs.files.map (fun f =>
        if f.1 == filename then (f.1, strReplace f.2 original replacement) else f)⟩

/-- The diagnostic printed by setup.py for an invalid project name. -/
def msgInvalidName : String :=
  "Invalid project name. It must start with an uppercase letter and contain only alphanumeric characters or underscores."

/-- The diagnostic printed by setup.py for an invalid package name. -/
def msgInvalidPackage : String :=
  "Invalid package name. It must start with a lowercase letter and be dot-separated."

/-- The stamping destination computed by setup.py: join the project name,
"src" and the package, then replace every dot in the whole joined path by
the separator. -/
def folder_path (project_name package_name : String) : String :=
  strReplace (joinP (joinP project_name "src") package_name) "." "/"

/-! ## The three stamped source files (content templates of setup.py) -/

/-- Content stamped for the application entry point, lines 189 to 222 of
setup.py, with the package and project interpolation points. -/
def mainAppJava (package_name project_name : String) : String :=
  "package " ++ package_name ++ ";\r\n\r\n" ++
  "import " ++ package_name ++ ".controllers.DateTime;\r\n" ++
  "import " ++ package_name ++ ".controllers.HomeController;\r\n\r\n" ++
  "import web.ambassador.core.Kernel;\r\nimport java.io.IOException;\r\n\r\n" ++
  "public class " ++ project_name ++ " \x7b\r\n" ++
  "    public static void main(String[] args) \x7b\r\n" ++
  "        try(Kernel framework = new Kernel(8080)) \x7b\r\n" ++
  "            framework.setupShutdownHook(\r\n" ++
  "                ()-> System.out.println(\"Server stopped successfully!\"),\r\n" ++
  "                ()-> System.out.println(\"Cannot shutdown server!\")\r\n" ++
  "            );\r\n\r\n" ++
  "            framework.registerController(HomeController.class);\r\n" ++
  "            framework.registerController(DateTime.class);\r\n\r\n" ++
  "            framework.setMaxThreads(Runtime.getRuntime().availableProcessors() * 2);\r\n" ++
  "            framework.start();\r\n" ++
  "        \x7d\r\n" ++
  "        catch(IOException e) \x7b\r\n" ++
  "            System.err.println(\"Failed to start server: \" + e.getMessage());\r\n" ++
  "            System.exit(1);\r\n" ++
  "        \x7d\r\n" ++
  "        catch(Exception e) \x7b\r\n" ++
  "            System.err.println(\"Unexpected error: \" + e.getMessage());\r\n" ++
  "            System.exit(1);\r\n" ++
  "        \x7d\r\n" ++
  "    \x7d\r\n" ++
  "\x7d\r\n"

/-- Content stamped for the home controller, lines 230 to 319 of setup.py,
with the package interpolation point. -/
def homeControllerJava (package_name : String) : String :=
  "package " ++ package_name ++ ".controllers;\r\n\r\n" ++
  "import web.ambassador.annotations.Controller;\r\n" ++
  "import web.ambassador.annotations.Method;\r\n" ++
  "import web.ambassador.db.DatabaseManager;\r\n" ++
  "import web.ambassador.http.Request;\r\n" ++
  "import web.ambassador.http.Response;\r\n" ++
  "import web.ambassador.view.Component;\r\n" ++
  "import web.ambassador.view.Dom;\r\n" ++
  "import web.ambassador.view.ViewContent;\r\n\r\n" ++
  "@Controller\r\n" ++
  "public class HomeController implements Component \x7b\r\n" ++
  "    @Override\r\n" ++
  "    @Method\r\n" ++
  "    public ViewContent index(Request request, Response response, DatabaseManager dbManager) \x7b\r\n" ++
  "        return Dom.createPage(\r\n" ++
  "            Dom.head(\r\n" ++
  "                Dom.title(\"Your Ambassador homepage!\"),\r\n" ++
  "                Dom.stylesheet(\"assets/styles/bootstrap.min.css\")\r\n" ++
  "            ),\r\n" ++
  "            Dom.body(\r\n" ++
  "                Dom.br(),\r\n" ++
  "                Dom.div(\r\n" ++
  "                    Dom.img()\r\n" ++
  "                        .src(\"assets/images/logo.png\")\r\n" ++
  "                        .attr(\"alt\", \"Logo\")\r\n" ++
  "                        .attr(\"width\", \"300\")\r\n" ++
  "                        .addClass(\"mt-4\"),\r\n" ++
  "                    Dom.h2(\"Welcome to your Ambassador homepage!\")\r\n" ++
  "                        .addClass(\"mt-4\"),\r\n" ++
  "                    Dom.p(\r\n" ++
  "                        Dom.noTag(\"Server date and time is: \"),\r\n" ++
  "                        Dom.span().id(\"datetime\")\r\n" ++
  "                    ),\r\n" ++
  "                    Dom.div(\r\n" ++
  "                        Dom.a(\r\n" ++
  "                            \"https://nthnn.github.io/Ambassador\",\r\n" ++
  "                            \"Learn More\",\r\n" ++
  "                            \"_blank\"\r\n" ++
  "                        ).addClass(\r\n" ++
  "                            \"btn\",\r\n" ++
  "                            \"btn-primary\",\r\n" ++
  "                            \"d-block-inline\",\r\n" ++
  "                            \"mx-1\"\r\n" ++
  "                        ),\r\n" ++
  "                        Dom.a(\r\n" ++
  "                            \"https://github.com/nthnn/Ambassador\",\r\n" ++
  "                            \"GitHub\",\r\n" ++
  "                            \"_blank\"\r\n" ++
  "                        ).addClass(\r\n" ++
  "                            \"btn\",\r\n" ++
  "                            \"btn-primary\",\r\n" ++
  "                            \"d-block-inline\",\r\n" ++
  "                            \"mx-1\"\r\n" ++
  "                        )\r\n" ++
  "                    ),\r\n" ++
  "                    Dom.script(\r\n" ++
  "                        \"javascript\",\r\n" ++
  "                        \"\"\"\r\n" ++
  "                        const fetchDatetime = async ()=> \x7b\r\n" ++
  "                            const response = await fetch(\x27/datetime\x27, \x7b\r\n" ++
  "                                method: \x27POST\x27,\r\n" ++
  "                                headers: \x7b\r\n" ++
  "                                    \x27Content-Type\x27: \x27application/json\x27\r\n" ++
  "                                \x7d,\r\n" ++
  "                                body: JSON.stringify(\x7b\x7d)\r\n" ++
  "                            \x7d);\r\n\r\n" ++
  "                            if(!response.ok)\r\n" ++
  "                                return;\r\n\r\n" ++
  "                            const data = await response.json();\r\n" ++
  "                            const datetimeElement = document.getElementById(\x27datetime\x27);\r\n\r\n" ++
  "                            datetimeElement.textContent = data.datetime || \"No data received\";\r\n" ++
  "                        \x7d;\r\n\r\n" ++
  "                        fetchDatetime();\r\n" ++
  "                        setInterval(fetchDatetime, 1000);\r\n" ++
  "                        \"\"\"\r\n" ++
  "                    )\r\n" ++
  "                ).attr(\"align\", \"center\")\r\n" ++
  "                    .addClass(\"mt-4\")\r\n" ++
  "            )\r\n" ++
  "        );\r\n" ++
  "    \x7d\r\n" ++
  "\x7d\r\n"

/-- Content stamped for the datetime controller, lines 327 to 364 of
setup.py, with the package interpolation point. -/
def dateTimeJava (package_name : String) : String :=
  "package " ++ package_name ++ ".controllers;\r\n\r\n" ++
  "import web.ambassador.annotations.Controller;\r\n" ++
  "import web.ambassador.annotations.Method;\r\n" ++
  "import web.ambassador.db.DatabaseManager;\r\n" ++
  "import web.ambassador.enums.HttpStatusCode;\r\n" ++
  "import web.ambassador.enums.MethodType;\r\n" ++
  "import web.ambassador.http.Request;\r\n" ++
  "import web.ambassador.http.Response;\r\n" ++
  "import web.ambassador.view.Component;\r\n" ++
  "import web.ambassador.view.EmptyView;\r\n" ++
  "import web.ambassador.view.JsonContent;\r\n" ++
  "import web.ambassador.view.ViewContent;\r\n\r\n" ++
  "import java.util.Date;\r\n" ++
  "import java.util.HashMap;\r\n" ++
  "import java.util.Map;\r\n\r\n" ++
  "@Controller(path=\"/datetime\")\r\n" ++
  "public class DateTime implements Component \x7b\r\n" ++
  "    @Override\r\n" ++
  "    @Method(MethodType.POST)\r\n" ++
  "    public ViewContent index(Request request, Response response, DatabaseManager dbManager) \x7b\r\n" ++
  "        Map<String, Object> data = new HashMap<>();\r\n" ++
  "        data.put(\"datetime\", new Date());\r\n\r\n" ++
  "        return JsonContent.fromMap(data);\r\n" ++
  "    \x7d\r\n\r\n" ++
  "    @Method\r\n" ++
  "    public ViewContent redirect(Request request, Response response, DatabaseManager dbManager) \x7b\r\n" ++
  "        response.setStatusCode(HttpStatusCode.PERMANENT_REDIRECT);\r\n" ++
  "        response.getHeaders().put(\"Location\", \"/\");\r\n\r\n" ++
  "        return new EmptyView();\r\n" ++
  "    \x7d\r\n" ++
  "\x7d\r\n"

/-! ## The modelled template tree -/

/-- Modelled from the spec: the template manifest file, a template artifact
not present in src/, whose fully-qualified class reference is the placeholder
com.example.app.WebApplication. -/
def manifestMF : String :=
  "Manifest-Version: 1.0\r\nMain-Class: com.example.app.WebApplication\r\n"

/-- Modelled from the spec: the IDE artifact descriptor, a template artifact
not present in src/, carrying the placeholder artifact id in both casings
and the placeholder project name. -/
def artifactsXmlContent : String :=
  "<artifact name=\"ambassador-template\" module=\"Ambassador\" file=\"ambassador_template.jar\"/>"

/-- Modelled from the spec: the IDE run-configuration descriptor, a template
artifact not present in src/, carrying the placeholder artifact id, project
name and fully-qualified class reference. -/
def runConfigXmlContent : String :=
  "<configuration name=\"ambassador-template\" project=\"Ambassador\" mainClass=\"com.example.app.WebApplication\"/>"

/-- Modelled from the spec: the IDE scope descriptor, a template artifact not
present in src/, carrying the placeholder package. -/
def scopesXmlContent : String :=
  "<scope pattern=\"com.example.app\"/>"

/-- Modelled from the spec: the IDE modules descriptor, a template artifact
not present in src/, carrying the placeholder project name. -/
def modulesXmlContent : String :=
  "<modules project=\"Ambassador\"/>"

/-- Modelled from the spec: the fixed template tree the script consumes — the
version-control, documentation and miscellany directories, the internal
example source tree, the pruned marker files, the IDE descriptors and the
manifest; the tree itself is a repository artifact not present in src/. -/
def templateFS : FS :=
  ⟨["Ambassador", "Ambassador/.git", "Ambassador/docs", "Ambassador/misc",
    "Ambassador/src", "Ambassador/src/com", "Ambassador/src/com/example",
    "Ambassador/src/com/example/app", "Ambassador/.idea",
    "Ambassador/.idea/artifacts", "Ambassador/.idea/runConfigurations",
    "Ambassador/.idea/scopes", "Ambassador/META-INF"],
   [("Ambassador/.git/HEAD", "ref: refs/heads/main\r\n"),
    ("Ambassador/docs/index.md", "Template documentation\r\n"),
    ("Ambassador/misc/notes.txt", "misc\r\n"),
    ("Ambassador/src/com/example/app/WebApplication.java", "package com.example.app;\r\n"),
    ("Ambassador/.gitignore", "out\r\n"),
    ("Ambassador/.gitattributes", "* text=auto\r\n"),
    ("Ambassador/Doxyfile", "PROJECT_NAME = Ambassador\r\n"),
    ("Ambassador/README.md", "Ambassador template\r\n"),
    ("Ambassador/.idea/vcs.xml", "<vcs/>"),
    ("Ambassador/Ambassador.iml", "<module type=\"JAVA_MODULE\"/>"),
    ("Ambassador/.idea/artifacts/ambassador_template.xml", artifactsXmlContent),
    ("Ambassador/.idea/runConfigurations/ambassador_template.xml", runConfigXmlContent),
    ("Ambassador/.idea/scopes/web_ambassador.xml", scopesXmlContent),
    ("Ambassador/.idea/modules.xml", modulesXmlContent),
    ("Ambassador/META-INF/MANIFEST.MF", manifestMF)]⟩

/-! ## The whole script -/

/-- Embeds the module-level statements of setup.py, in source order:
validate the two inputs, prune, rename, substitute, stamp.  Each failing
step yields the corresponding terminal outcome. -/
def runScriptE (project_name package_name : String) (fs0 : FS) :
    Except Outcome FS :=
  if is_valid_java_class_name project_name = false then
    Except.error ⟨0, [msgInvalidName], fs0⟩
  else if is_valid_java_package package_name = false then
    Except.error ⟨0, [msgInvalidPackage], fs0⟩
  else
    (rmtreeE (joinP "Ambassador" ".git") fs0).bind fun fs =>
    (rmtreeE (joinP "Ambassador" "docs") fs).bind fun fs =>
    (rmtreeE (joinP "Ambassador" "misc") fs).bind fun fs =>
    (rmtreeE (joinP (joinP "Ambassador" "src") "com") fs).bind fun fs =>
    (removeE (joinP "Ambassador" ".gitignore") fs).bind fun fs =>
    (removeE (joinP "Ambassador" ".gitattributes") fs).bind fun fs =>
    (removeE (joinP "Ambassador" "Doxyfile") fs).bind fun fs =>
    (removeE (joinP "Ambassador" "README.md") fs).bind fun fs =>
    (removeE (joinP (joinP "Ambassador" ".idea") "vcs.xml") fs).bind fun fs =>
    (moveE "Ambassador" project_name fs).bind fun fs =>
    (moveE (joinP project_name "Ambassador.iml")
      (joinP project_name (project_name ++ ".iml")) fs).bind fun fs =>
    (moveE (joinP (joinP (joinP project_name ".idea") "artifacts") "ambassador_template.xml")
      (joinP (joinP (joinP project_name ".idea") "artifacts") (project_name ++ ".xml"))
      fs).bind fun fs =>
    (moveE (joinP (joinP (joinP project_name ".idea") "runConfigurations") "ambassador_template.xml")
      (joinP (joinP (joinP project_name ".idea") "runConfigurations") (project_name ++ ".xml"))
      fs).bind fun fs =>
    (makedirsE (folder_path project_name package_name) fs).bind fun fs =>
    (makedirsE (joinP (folder_path project_name package_name) "controllers") fs).bind fun fs =>
    (replaceInFileE (joinP (joinP project_name "META-INF") "MANIFEST.MF")
      "com.example.app.WebApplication" (package_name ++ "." ++ project_name) fs).bind fun fs =>
    (replaceInFileE (joinP (joinP (joinP project_name ".idea") "artifacts") (project_name ++ ".xml"))
      "ambassador-template" project_name fs).bind fun fs =>
    (replaceInFileE (joinP (joinP (joinP project_name ".idea") "artifacts") (project_name ++ ".xml"))
      "ambassador_template" project_name fs).bind fun fs =>
    (replaceInFileE (joinP (joinP (joinP project_name ".idea") "artifacts") (project_name ++ ".xml"))
      "Ambassador" project_name fs).bind fun fs =>
    (replaceInFileE (joinP (joinP (joinP project_name ".idea") "runConfigurations") (project_name ++ ".xml"))
      "ambassador-template" project_name fs).bind fun fs =>
    (replaceInFileE (joinP (joinP (joinP project_name ".idea") "runConfigurations") (project_name ++ ".xml"))
      "Ambassador" project_name fs).bind fun fs =>
    (replaceInFileE (joinP (joinP (joinP project_name ".idea") "runConfigurations") (project_name ++ ".xml"))
      "com.example.app.WebApplication" (package_name ++ "." ++ project_name) fs).bind fun fs =>
    (replaceInFileE (joinP (joinP (joinP project_name ".idea") "scopes") "web_ambassador.xml")
      "com.example.app" package_name fs).bind fun fs =>
    (replaceInFileE (joinP (joinP project_name ".idea") "modules.xml")
      "Ambassador" project_name fs).bind fun fs =>
    (writeNewE (joinP (folder_path project_name package_name) (project_name ++ ".java"))
      (mainAppJava package_name project_name) fs).bind fun fs =>
    (writeNewE (joinP (joinP (folder_path project_name package_name) "controllers") "HomeController.java")
      (homeControllerJava package_name) fs).bind fun fs =>
    (writeNewE (joinP (joinP (folder_path project_name package_name) "controllers") "DateTime.java")
      (dateTimeJava package_name) fs).bind fun fs =>
    Except.ok fs

/-- The observable behavior of one whole process run of setup.py. -/
def runScript (project_name package_name : String) (fs0 : FS) : Outcome :=
  match runScriptE project_name package_name fs0 with
  | Except.error o => o
  | Except.ok fs => ⟨0, [], fs⟩

/-! ## Content observers -/

/-- The first line of CRLF-terminated text. -/
def firstLineCR (s : String) : String :=
  String.mk (s.data.takeWhile (fun c => !(c == '\r')))

/-- Strips one trailing carriage return. -/
def dropCR (l : List Char) : List Char :=
  if l.getLastD ' ' == '\r' then l.dropLast else l

/-- The lines of CRLF-terminated text. -/
def linesOf (s : String) : List String :=
  ((splitOnChar '\n' s.data).map dropCR).map String.mk

/-- Whether a line consists only of whitespace. -/
def isBlankLine (l : String) : Bool := l.data.all (fun c => c.isWhitespace)

/-- The first line that is not blank. -/
def firstNonBlankLine (s : String) : Option String :=
  (linesOf s).find? (fun l => !(isBlankLine l))

/-- Whether pat occurs in s as a contiguous substring. -/
def containsSub (s pat : String) : Bool := occursSub pat.data s.data

/-- The template tree with the manifest file absent: the scenario of a
file-not-found error during substitution. -/
def templateFSNoManifest : FS :=
  ⟨templateFS.dirs,
   templateFS.files.filter
     (fun f => !(f.1 == joinP (joinP "Ambassador" "META-INF") "MANIFEST.MF"))⟩

/-- The template tree with the documentation directory (and its contents)
absent: the missing-artifact scenario before Pruning. -/
def templateFSNoDocs : FS :=
  ⟨templateFS.dirs.filter (fun d => !(d == joinP "Ambassador" "docs")),
   templateFS.files.filter (fun f => !(isUnder (joinP "Ambassador" "docs") f.1))⟩

theorem memS_filter_false (x : String) (p : String → Bool) (l : List String)
    (h : memS x l = false) : memS x (l.filter p) = false := by
  induction l with
  | nil => exact h
  | cons a t ih =>
    rw [memS] at h
    have h1 : (x == a) = false := by
      cases hx : x == a with
      | false => rfl
      | true => rw [hx] at h; exact absurd h (by simp)
    have h2 : memS x t = false := by
      rw [h1] at h
      simpa using h
    rw [List.filter_cons]
    by_cases hp : p a = true
    · rw [if_pos hp, memS, h1, ih h2]
      rfl
    · rw [if_neg hp]
      exact ih h2

theorem except_bind_ok {α β : Type} (a : α) (f : α → Except Outcome β) :
    (Except.ok a : Except Outcome α).bind f = f a := rfl

/-- C1 counterexample: with the invalid project name "123app" the script
prints its diagnostic and terminates through Python exit(), whose exit
status is 0, not the claimed non-zero value. -/
theorem C1_counterexample :
    (runScript "123app" "org.bar" templateFS).messages = [msgInvalidName] ∧
    (runScript "123app" "org.bar" templateFS).exitCode = 0 :=
  ⟨rfl, rfl⟩

/-- C1 amended: on an invalid project name, an invalid package path, or a
file-not-found error during substitution, the script prints one short
diagnostic and terminates immediately — but through the bare exit() call,
so with exit status zero, the same status as a successful run; only an
uncaught exception elsewhere gives a non-zero status. -/
theorem C1_failure_reporting_and_exit_status :
    (∀ proj pkg fs, is_valid_java_class_name proj = false →
      runScript proj pkg fs = ⟨0, [msgInvalidName], fs⟩) ∧
    (∀ proj pkg fs, is_valid_java_class_name proj = true →
      is_valid_java_package pkg = false →
      runScript proj pkg fs = ⟨0, [msgInvalidPackage], fs⟩) ∧
    (runScript "Foo" "org.bar" templateFSNoManifest).exitCode = 0 ∧
    (runScript "Foo" "org.bar" templateFSNoManifest).messages =
      ["Error: Foo/META-INF/MANIFEST.MF not found."] ∧
    (runScript "Foo" "org.bar" templateFS).exitCode = 0 ∧
    (runScript "Foo" "org.bar" templateFS).messages = [] := by
  refine ⟨?_, ?_, rfl, rfl, rfl, rfl⟩
  · intro proj pkg fs h
    simp [runScript, runScriptE, h]
  · intro proj pkg fs h1 h2
    simp [runScript, runScriptE, h1, h2]

theorem C1_failure_reporting_witness :
    runScript "123app" "org.acme" templateFSNoDocs =
      ⟨0, [msgInvalidName], templateFSNoDocs⟩ :=
  C1_failure_reporting_and_exit_status.1 "123app" "org.acme" templateFSNoDocs (by decide)

/-- C2: the end-to-end run with project name "Foo" and package "org.bar"
succeeds, creates the directory Foo/src/org/bar/controllers containing
HomeController.java and DateTime.java whose first non-blank line is the
controllers package declaration, and creates Foo/src/org/bar/Foo.java whose
first line is the package declaration and which references both controller
classes. -/
theorem C2_end_to_end :
    (runScript "Foo" "org.bar" templateFS).exitCode = 0 ∧
    (runScript "Foo" "org.bar" templateFS).messages = [] ∧
    memS "Foo/src/org/bar/controllers" (runScript "Foo" "org.bar" templateFS).fs.dirs = true ∧
    lookupFile "Foo/src/org/bar/controllers/HomeController.java"
      (runScript "Foo" "org.bar" templateFS).fs.files = some (homeControllerJava "org.bar") ∧
    firstNonBlankLine (homeControllerJava "org.bar") = some "package org.bar.controllers;" ∧
    lookupFile "Foo/src/org/bar/controllers/DateTime.java"
      (runScript "Foo" "org.bar" templateFS).fs.files = some (dateTimeJava "org.bar") ∧
    firstNonBlankLine (dateTimeJava "org.bar") = some "package org.bar.controllers;" ∧
    lookupFile "Foo/src/org/bar/Foo.java"
      (runScript "Foo" "org.bar" templateFS).fs.files = some (mainAppJava "org.bar" "Foo") ∧
    firstLineCR (mainAppJava "org.bar" "Foo") = "package org.bar;" ∧
    containsSub (mainAppJava "org.bar" "Foo") "org.bar.controllers.HomeController" = true ∧
    containsSub (mainAppJava "org.bar" "Foo") "org.bar.controllers.DateTime" = true := by
  refine ⟨rfl, rfl, rfl, rfl, by decide, rfl, by decide, rfl, by decide, by decide, by decide⟩

/-- C4: for every project name the validator rejects, the run aborts during
validation: the filesystem value is returned untouched and the only
observable effect is the diagnostic line. -/
theorem C4_invalid_name_leaves_tree_untouched (proj pkg : String) (fs : FS)
    (h : is_valid_java_class_name proj = false) :
    (runScript proj pkg fs).fs = fs ∧
    (runScript proj pkg fs).messages = [msgInvalidName] := by
  simp [runScript, runScriptE, h]

theorem C4_invalid_name_witness :
    is_valid_java_class_name "123app" = false ∧
    (runScript "123app" "org.bar" templateFS).fs = templateFS ∧
    (runScript "123app" "org.bar" templateFS).messages = [msgInvalidName] :=
  ⟨by decide,
   (C4_invalid_name_leaves_tree_untouched "123app" "org.bar" templateFS (by decide)).1,
   (C4_invalid_name_leaves_tree_untouched "123app" "org.bar" templateFS (by decide)).2⟩

/-- C5: if the documentation directory is absent when Pruning reaches it
(the version-control directory having been pruned just before), the run
aborts there with an uncaught FileNotFoundError: the final filesystem is
exactly the state after that first pruning step, so no renaming,
substitution or stamping was performed. -/
theorem C5_missing_docs_aborts (proj pkg : String) (fs : FS)
    (hv1 : is_valid_java_class_name proj = true)
    (hv2 : is_valid_java_package pkg = true)
    (hgit : memS (joinP "Ambassador" ".git") fs.dirs = true)
    (hdocs : memS (joinP "Ambassador" "docs") fs.dirs = false) :
    runScript proj pkg fs =
      ⟨1, ["FileNotFoundError: Ambassador/docs"],
       rmtreeFS (joinP "Ambassador" ".git") fs⟩ := by
  have hd2 : memS (joinP "Ambassador" "docs")
      (rmtreeFS (joinP "Ambassador" ".git") fs).dirs = false := by
    show memS _ (fs.dirs.filter _) = false
    exact memS_filter_false _ _ _ hdocs
  simp only [runScript, runScriptE, hv1, hv2, Bool.true_eq_false, if_false]
  rw [show rmtreeE (joinP "Ambassador" ".git") fs =
    Except.ok (rmtreeFS (joinP "Ambassador" ".git") fs) from by
      rw [rmtreeE, if_pos hgit]]
  rw [except_bind_ok]
  rw [show rmtreeE (joinP "Ambassador" "docs") (rmtreeFS (joinP "Ambassador" ".git") fs) =
    Except.error ⟨1, ["FileNotFoundError: " ++ joinP "Ambassador" "docs"],
      rmtreeFS (joinP "Ambassador" ".git") fs⟩ from by
      rw [rmtreeE, hd2]
      simp]
  rfl

theorem C5_missing_docs_witness :
    is_valid_java_class_name "Foo" = true ∧
    is_valid_java_package "org.bar" = true ∧
    memS (joinP "Ambassador" ".git") templateFSNoDocs.dirs = true ∧
    memS (joinP "Ambassador" "docs") templateFSNoDocs.dirs = false ∧
    runScript "Foo" "org.bar" templateFSNoDocs =
      ⟨1, ["FileNotFoundError: Ambassador/docs"],
       rmtreeFS (joinP "Ambassador" ".git") templateFSNoDocs⟩ :=
  ⟨by decide, by decide, by decide, by decide,
   C5_missing_docs_aborts "Foo" "org.bar" templateFSNoDocs
     (by decide) (by decide) (by decide) (by decide)⟩

theorem lookupFile_map_update (fname orig repl : String)
    (files : List (String × String)) (c : String)
    (h : lookupFile fname files = some c) :
    lookupFile fname (files.map (fun f =>
      if f.1 == fname then (f.1, strReplace f.2 orig repl) else f)) =
      some (strReplace c orig repl) := by
  induction files with
  | nil => exact absurd h (by simp [lookupFile])
  | cons f t ih =>
    by_cases hf : (f.1 == fname) = true
    · rw [lookupFile, if_pos hf] at h
      injection h with hc
      rw [List.map_cons, if_pos hf, lookupFile, if_pos hf, hc]
    · rw [lookupFile, if_neg hf] at h
      rw [List.map_cons, if_neg hf, lookupFile, if_neg hf]
      exact ih h

theorem lookupFile_map_update_other (q fname orig repl : String)
    (files : List (String × String)) (h : ¬(q = fname)) :
    lookupFile q (files.map (fun f =>
      if f.1 == fname then (f.1, strReplace f.2 orig repl) else f)) =
      lookupFile q files := by
  induction files with
  | nil => rfl
  | cons f t ih =>
    by_cases hf : (f.1 == fname) = true
    · have hq : (f.1 == q) = false := by
        have : f.1 = fname := by simpa [beq_iff_eq] using hf
        simp [beq_iff_eq, this]
        exact fun hh => h hh.symm
      rw [List.map_cons, if_pos hf, lookupFile, lookupFile, hq]
      simp only [Bool.false_eq_true, if_false]
      exact ih
    · rw [List.map_cons, if_neg hf, lookupFile, lookupFile]
      by_cases hq : (f.1 == q) = true
      · rw [if_pos hq, if_pos hq]
      · rw [if_neg hq, if_neg hq]
        exact ih

/-- C8: replace_in_file performs a literal, leftmost-first, non-overlapping
replace-all of the old text over the file's full content — its result equals
the specification-side recursion that repeatedly splices the replacement at
the leftmost occurrence and continues strictly after it — and writes the
full result back to the same path, fully overwriting the prior content,
while touching no other file and no directory. -/
theorem C8_substitute_is_literal_replace_all (fname old new : String) (fs : FS)
    (c : String) (hold : old.data ≠ [])
    (hfile : lookupFile fname fs.files = some c) :
    ∃ fs', replaceInFileE fname old new fs = Except.ok fs' ∧
      fs'.dirs = fs.dirs ∧
      lookupFile fname fs'.files =
        some (String.mk (replaceAllSpec old.data new.data c.data)) ∧
      ∀ q, q ≠ fname → lookupFile q fs'.files = lookupFile q fs.files := by
  have heq : strReplace c old new = String.mk (replaceAllSpec old.data new.data c.data) := by
    have hemp : old.data.isEmpty = false := by
      cases ho : old.data with
      | nil => exact absurd ho hold
      | cons a t => rfl
    rw [strReplace, pyReplace, hemp]
    simp only [Bool.false_eq_true, if_false]
    rw [replaceAllSpec]
    exact congrArg String.mk
      (replaceAux_eq_replaceEverywhere old.data new.data hold c.data.length c.data
        le_rfl c.data.length c.data.length le_rfl le_rfl)
  refine ⟨⟨fs.dirs, fs.files.map (fun f =>
      if f.1 == fname then (f.1, strReplace f.2 old new) else f)⟩, ?_, rfl, ?_, ?_⟩
  · unfold replaceInFileE
    rw [hfile]
  · rw [← heq]
    exact lookupFile_map_update fname old new fs.files c hfile
  · intro q hq
    exact lookupFile_map_update_other q fname old new fs.files hq

theorem C8_substitute_witness :
    ∃ fs', replaceInFileE "f.txt" "ab" "X" ⟨["d"], [("f.txt", "ab-abb")]⟩ = Except.ok fs' ∧
      fs'.dirs = (⟨["d"], [("f.txt", "ab-abb")]⟩ : FS).dirs ∧
      lookupFile "f.txt" fs'.files =
        some (String.mk (replaceAllSpec "ab".data "X".data "ab-abb".data)) ∧
      ∀ q, q ≠ "f.txt" → lookupFile q fs'.files =
        lookupFile q (⟨["d"], [("f.txt", "ab-abb")]⟩ : FS).files :=
  C8_substitute_is_literal_replace_all "f.txt" "ab" "X"
    ⟨["d"], [("f.txt", "ab-abb")]⟩ "ab-abb" (by decide) rfl

theorem stringDataEq {a b : String} (h : a.data = b.data) : a = b := by
  cases a
  cases b
  exact congrArg String.mk h

theorem replaceAux_single_char (a b : Char) :
    ∀ (fuel : Nat) (l : List Char), l.length ≤ fuel →
      replaceAux [a] [b] fuel l = l.map (fun x => if x = a then b else x) := by
  intro fuel
  induction fuel with
  | zero =>
    intro l hl
    have hnil : l = [] := List.length_eq_zero.mp (Nat.le_zero.mp hl)
    subst hnil
    rfl
  | succ n ih =>
    intro l hl
    cases l with
    | nil => rfl
    | cons x t =>
      rw [replaceAux]
      simp only [List.length_cons, Nat.succ_le_succ_iff] at hl
      by_cases hx : x = a
      · have hp : [a].isPrefixOf (x :: t) = true := by
          simp [List.isPrefixOf, hx]
        rw [if_pos hp, List.map_cons, if_pos hx]
        show [b] ++ replaceAux [a] [b] n t = b :: t.map _
        simp only [List.singleton_append]
        exact congrArg (b :: ·) (ih t hl)
      · have hp : [a].isPrefixOf (x :: t) = false := by
          simp [List.isPrefixOf, beq_iff_eq]
          exact fun hh => hx hh.symm
        rw [hp]
        simp only [Bool.false_eq_true, if_false]
        rw [List.map_cons, if_neg hx]
        exact congrArg (x :: ·) (ih t hl)

theorem pyReplace_single_char (a b : Char) (l : List Char) :
    pyReplace [a] [b] l = l.map (fun x => if x = a then b else x) := by
  rw [pyReplace]
  simp only [List.isEmpty, Bool.false_eq_true, if_false]
  exact replaceAux_single_char a b l.length l le_rfl

theorem map_sepchar (a b : Char) (l : List Char) :
    l.map (fun x => if x = a then b else x) = joinWith [b] (splitOnChar a l) := by
  induction l with
  | nil => rfl
  | cons x t ih =>
    obtain ⟨h, t2, ht⟩ : ∃ h t2, splitOnChar a t = h :: t2 := by
      cases hsp : splitOnChar a t with
      | nil => exact absurd hsp (splitOnChar_ne_nil a t)
      | cons h t2 => exact ⟨h, t2, rfl⟩
    rw [ht] at ih
    rw [List.map_cons]
    simp only [splitOnChar, beq_iff_eq]
    by_cases hx : x = a
    · rw [if_pos hx, if_pos hx, ht]
      show b :: t.map _ = [] ++ [b] ++ joinWith [b] (h :: t2)
      simp only [List.nil_append, List.singleton_append]
      exact congrArg (b :: ·) ih
    · rw [if_neg hx, if_neg hx, ht]
      cases t2 with
      | nil =>
        show x :: t.map _ = x :: h
        rw [ih]
        rfl
      | cons z zs =>
        show x :: t.map _ = (x :: h) ++ [b] ++ joinWith [b] (z :: zs)
        rw [ih]
        show x :: (h ++ [b] ++ joinWith [b] (z :: zs)) = _
        simp [List.cons_append, List.append_assoc]

theorem map_sepchar_id (a b : Char) (l : List Char) (hmem : a ∉ l) :
    l.map (fun x => if x = a then b else x) = l := by
  induction l with
  | nil => rfl
  | cons x t ih =>
    simp only [List.mem_cons, not_or] at hmem
    rw [List.map_cons, if_neg (fun hh => hmem.1 hh.symm), ih hmem.2]

theorem valid_name_no_dot (s : String) (h : is_valid_java_class_name s = true) :
    '.' ∉ s.data := by
  intro hmem
  cases hd : s.data with
  | nil => rw [hd] at hmem; exact absurd hmem (List.not_mem_nil _)
  | cons c cs =>
    rw [is_valid_java_class_name, hd] at h
    have h1 : isUpperAZ c = true := (Bool.and_eq_true _ _ ▸ h).1
    have h2 : cs.all isWordChar = true := (Bool.and_eq_true _ _ ▸ h).2
    rw [hd] at hmem
    rcases List.mem_cons.mp hmem with hh | hh
    · rw [← hh] at h1
      exact absurd h1 (by decide)
    · exact isWordChar_ne_dot (List.all_eq_true.mp h2 '.' hh) rfl

/-- C10: the stamping destination computed by joining the project name, src
and the package and then replacing every dot of the whole joined path by the
separator equals exactly projectName/src/segment1/segment2/...; the
whole-path dot replacement never alters the project-name or src components,
because a validated project name contains no dot. -/
theorem C10_folder_path_shape (proj pkg : String)
    (h : is_valid_java_class_name proj = true) :
    folder_path proj pkg =
      String.mk (joinWith ['/'] (proj.data :: "src".data :: splitOnChar '.' pkg.data)) ∧
    folder_path proj pkg = proj ++ "/src/" ++ strReplace pkg "." "/" := by
  obtain ⟨g, gs, hgg⟩ : ∃ g gs, splitOnChar '.' pkg.data = g :: gs := by
    cases hsp : splitOnChar '.' pkg.data with
    | nil => exact absurd hsp (splitOnChar_ne_nil '.' pkg.data)
    | cons g gs => exact ⟨g, gs, rfl⟩
  have hdata : (joinP (joinP proj "src") pkg).data =
      proj.data ++ ('/' :: 's' :: 'r' :: 'c' :: '/' :: pkg.data) := by
    show (((proj.data ++ "/".data) ++ "src".data) ++ "/".data) ++ pkg.data = _
    simp [List.append_assoc]
  have key : pyReplace ".".data "/".data ((joinP (joinP proj "src") pkg).data) =
      proj.data ++
        ('/' :: 's' :: 'r' :: 'c' :: '/' :: joinWith ['/'] (splitOnChar '.' pkg.data)) := by
    show pyReplace ['.'] ['/'] ((joinP (joinP proj "src") pkg).data) = _
    rw [pyReplace_single_char, hdata, List.map_append,
      map_sepchar_id _ _ _ (valid_name_no_dot proj h)]
    show proj.data ++ ('/' :: 's' :: 'r' :: 'c' :: '/' ::
      pkg.data.map (fun x => if x = '.' then '/' else x)) = _
    rw [map_sepchar]
  constructor
  · apply congrArg String.mk
    show pyReplace ".".data "/".data ((joinP (joinP proj "src") pkg).data) =
      joinWith ['/'] (proj.data :: ('s' :: 'r' :: 'c' :: []) :: splitOnChar '.' pkg.data)
    rw [key, hgg]
    show proj.data ++ ('/' :: 's' :: 'r' :: 'c' :: '/' :: joinWith ['/'] (g :: gs)) =
      proj.data ++ ['/'] ++ (('s' :: 'r' :: 'c' :: []) ++ ['/'] ++ joinWith ['/'] (g :: gs))
    simp [List.append_assoc]
  · apply stringDataEq
    show pyReplace ".".data "/".data ((joinP (joinP proj "src") pkg).data) =
      ((proj.data ++ "/src/".data) ++ pyReplace ".".data "/".data pkg.data)
    rw [key]
    have hpkg : pyReplace ".".data "/".data pkg.data =
        joinWith ['/'] (splitOnChar '.' pkg.data) := by
      show pyReplace ['.'] ['/'] pkg.data = _
      rw [pyReplace_single_char, map_sepchar]
    rw [hpkg]
    show proj.data ++ ('/' :: 's' :: 'r' :: 'c' :: '/' :: joinWith ['/'] (splitOnChar '.' pkg.data)) =
      (proj.data ++ ('/' :: 's' :: 'r' :: 'c' :: '/' :: [])) ++
        joinWith ['/'] (splitOnChar '.' pkg.data)
    simp [List.append_assoc]

theorem C10_folder_path_witness :
    folder_path "Foo" "org.bar" =
      String.mk (joinWith ['/'] ("Foo".data :: "src".data :: splitOnChar '.' "org.bar".data)) ∧
    folder_path "Foo" "org.bar" = "Foo" ++ "/src/" ++ strReplace "org.bar" "." "/" :=
  C10_folder_path_shape "Foo" "org.bar" (by decide)

/-- Scans adjacent characters for an occurrence of the letter m directly
followed by a dot — the only way the placeholder package com.example.app can
start to reappear, since every dot of the substituted manifest is preceded
by a different character. -/
def noMDot : List Char → Bool
  | [] => true
  | [_] => true
  | a :: b :: t => !(a == 'm' && b == '.') && noMDot (b :: t)

theorem noMDot_concat_false (u v : List Char) :
    noMDot (u ++ 'm' :: '.' :: v) = false := by
  induction u with
  | nil => simp [noMDot]
  | cons a t ih =>
    cases t with
    | nil => simp [noMDot]
    | cons b t2 =>
      show noMDot (a :: b :: (t2 ++ 'm' :: '.' :: v)) = false
      rw [noMDot]
      have ih' : noMDot (b :: (t2 ++ 'm' :: '.' :: v)) = false := ih
      rw [ih']
      simp

theorem noMDot_append (u v : List Char)
    (hu : noMDot u = true) (hv : noMDot v = true)
    (hj : ∀ x y, u.getLast? = some x → v.head? = some y → ¬(x = 'm' ∧ y = '.')) :
    noMDot (u ++ v) = true := by
  induction u with
  | nil => simpa using hv
  | cons a t ih =>
    cases t with
    | nil =>
      cases v with
      | nil => exact hu
      | cons b w =>
        show noMDot (a :: b :: w) = true
        rw [noMDot]
        have hpair : ¬(a = 'm' ∧ b = '.') := hj a b rfl rfl
        have hab : (a == 'm' && b == '.') = false := by
          cases ham : a == 'm' with
          | false => rfl
          | true =>
            cases hbd : b == '.' with
            | false => rfl
            | true =>
              exact absurd ⟨by simpa [beq_iff_eq] using ham,
                by simpa [beq_iff_eq] using hbd⟩ hpair
        rw [hab]
        simpa using hv
    | cons a2 t2 =>
      show noMDot (a :: a2 :: (t2 ++ v)) = true
      rw [noMDot]
      have h1 : (!(a == 'm' && a2 == '.')) = true := by
        rw [noMDot] at hu
        exact (Bool.and_eq_true _ _ ▸ hu).1
      have h2 : noMDot (a2 :: t2) = true := by
        rw [noMDot] at hu
        exact (Bool.and_eq_true _ _ ▸ hu).2
      have hj' : ∀ x y, (a2 :: t2).getLast? = some x → v.head? = some y →
          ¬(x = 'm' ∧ y = '.') := by
        intro x y hx hy
        exact hj x y (by rw [List.getLast?_cons_cons]; exact hx) hy
      have ih' : noMDot ((a2 :: t2) ++ v) = true := ih h2 hj'
      rw [Bool.and_eq_true]
      exact ⟨h1, ih'⟩

theorem noMDot_of_no_dot (l : List Char) (h : '.' ∉ l) : noMDot l = true := by
  induction l with
  | nil => rfl
  | cons a t ih =>
    cases t with
    | nil => rfl
    | cons b t2 =>
      rw [noMDot]
      simp only [List.mem_cons, not_or] at h
      have hb : (b == '.') = false := by
        cases hbb : b == '.' with
        | false => rfl
        | true =>
          have hbd : b = '.' := by simpa [beq_iff_eq] using hbb
          exact absurd hbd.symm h.2.1
      rw [hb]
      have ht : '.' ∉ b :: t2 := by
        intro hm
        rcases List.mem_cons.mp hm with hm | hm
        · exact h.2.1 hm
        · exact h.2.2 hm
      rw [ih ht]
      simp

theorem mdot_of_placeholder (l : List Char)
    (h : occursSub ('c' :: 'o' :: 'm' :: '.' :: 'e' :: 'x' :: 'a' :: 'm' :: 'p' :: 'l' ::
      'e' :: '.' :: 'a' :: 'p' :: 'p' :: []) l = true) :
    ∃ u v, l = u ++ 'm' :: '.' :: v := by
  obtain ⟨u, v, huv⟩ := (occursSub_iff _ _).mp h
  refine ⟨u ++ ('c' :: 'o' :: []),
    'e' :: 'x' :: 'a' :: 'm' :: 'p' :: 'l' :: 'e' :: '.' :: 'a' :: 'p' :: 'p' :: v, ?_⟩
  rw [huv]
  simp

/-- C3 counterexample: a manifest content in which the placeholder package
occurs outside the full placeholder class reference keeps that occurrence —
the Substituting step only rewrites the full reference
com.example.app.WebApplication, so the bare placeholder package survives,
contradicting the zero-occurrences guarantee claimed for every manifest
content containing the placeholder package. -/
theorem C3_counterexample :
    containsSub "Main-Class: com.example.app.Other\r\n" "com.example.app" = true ∧
    is_valid_java_class_name "Foo" = true ∧
    strReplace "Main-Class: com.example.app.Other\r\n"
      "com.example.app.WebApplication" ("org.acme.widgets" ++ "." ++ "Foo") =
      "Main-Class: com.example.app.Other\r\n" ∧
    containsSub (strReplace "Main-Class: com.example.app.Other\r\n"
      "com.example.app.WebApplication" ("org.acme.widgets" ++ "." ++ "Foo"))
      "com.example.app" = true :=
  ⟨by decide, by decide, by decide, by decide⟩

/-- The quantification cannot be widened from the template manifest to every
manifest whose placeholder package occurs only inside the full placeholder
reference: in such a manifest the placeholder can re-form at the junction of
the inserted text and the remaining content when the validated project name
ends in the letter c, as this concrete instance shows. -/
theorem strReplace_junction_reforms_placeholder :
    is_valid_java_class_name "Xc" = true ∧
    ("Main-Class: com.example.app.WebApplicationom.example.app\r\n" : String) =
      "Main-Class: " ++ "com.example.app.WebApplication" ++ "om.example.app\r\n" ∧
    containsSub "Main-Class: " "com.example.app" = false ∧
    containsSub "om.example.app\r\n" "com.example.app" = false ∧
    strReplace "Main-Class: com.example.app.WebApplicationom.example.app\r\n"
      "com.example.app.WebApplication" ("org.acme.widgets" ++ "." ++ "Xc") =
      "Main-Class: org.acme.widgets.Xcom.example.app\r\n" ∧
    containsSub (strReplace "Main-Class: com.example.app.WebApplicationom.example.app\r\n"
      "com.example.app.WebApplication" ("org.acme.widgets" ++ "." ++ "Xc"))
      "com.example.app" = true :=
  ⟨by decide, by decide, by decide, by decide, by decide, by decide⟩

/-- C3 amended: for the template manifest, whose only occurrence of the
placeholder package is as the prefix of its single full placeholder
reference com.example.app.WebApplication, the Substituting step of a run
with package org.acme.widgets and any validated project name rewrites the
reference to org.acme.widgets.(project name) and leaves zero occurrences of
the placeholder package in the manifest. -/
theorem C3_manifest_substitution (proj : String)
    (h : is_valid_java_class_name proj = true) :
    strReplace manifestMF "com.example.app.WebApplication"
        ("org.acme.widgets" ++ "." ++ proj) =
      "Manifest-Version: 1.0\r\nMain-Class: org.acme.widgets." ++ proj ++ "\r\n" ∧
    containsSub (strReplace manifestMF "com.example.app.WebApplication"
      ("org.acme.widgets" ++ "." ++ proj)) "com.example.app" = false := by
  have hdata : (strReplace manifestMF "com.example.app.WebApplication"
      ("org.acme.widgets" ++ "." ++ proj)).data =
      "Manifest-Version: 1.0\r\nMain-Class: org.acme.widgets.".data ++
        (proj.data ++ '\r' :: '\n' :: []) := by
    show "Manifest-Version: 1.0\r\nMain-Class: org.acme.widgets.".data ++
      (proj.data ++ '\r' :: '\n' :: []) = _
    rfl
  refine ⟨rfl, ?_⟩
  cases hoc : containsSub (strReplace manifestMF "com.example.app.WebApplication"
      ("org.acme.widgets" ++ "." ++ proj)) "com.example.app" with
  | false => rfl
  | true =>
    exfalso
    obtain ⟨u, v, huv⟩ := mdot_of_placeholder _ hoc
    have hok : noMDot (strReplace manifestMF "com.example.app.WebApplication"
        ("org.acme.widgets" ++ "." ++ proj)).data = true := by
      rw [hdata]
      apply noMDot_append
      · decide
      · apply noMDot_append
        · exact noMDot_of_no_dot _ (valid_name_no_dot proj h)
        · decide
        · intro x y _ hy hxy
          have hy' : y = '\r' := by
            have : some '\r' = some y := hy
            injection this with hh
            exact hh.symm
          rw [hy'] at hxy
          exact absurd hxy.2 (by decide)
      · intro x y hx _ hxy
        have hx' : x = '.' := by
          have hlast : "Manifest-Version: 1.0\r\nMain-Class: org.acme.widgets.".data.getLast? =
            some '.' := by decide
          rw [hlast] at hx
          injection hx with hh
          exact hh.symm
        rw [hx'] at hxy
        exact absurd hxy.1 (by decide)
    have hbad := noMDot_concat_false u v
    rw [huv] at hok
    rw [hok] at hbad
    exact Bool.noConfusion hbad

theorem C3_manifest_substitution_witness :
    strReplace manifestMF "com.example.app.WebApplication"
        ("org.acme.widgets" ++ "." ++ "Foo") =
      "Manifest-Version: 1.0\r\nMain-Class: org.acme.widgets." ++ "Foo" ++ "\r\n" ∧
    containsSub (strReplace manifestMF "com.example.app.WebApplication"
      ("org.acme.widgets" ++ "." ++ "Foo")) "com.example.app" = false :=
  C3_manifest_substitution "Foo" (by decide)

end Ambassador
